import Mathlib

/-!
Shallow embedding of the FoC-project authentication handshake
(`src/implementation/server/authentication.cpp`) and of the secure-channel
encode path of the rename action (`src/implementation/client/actions/rename.cpp`).

Byte buffers are modelled as `List Nat` (one entry per byte, values as read).
OpenSSL primitives that live outside the repository (the AEAD cipher, the
signature algorithm, the KDF) are modelled symbolically: the cipher is a
function parameter `E`, the authentication tag is the record of everything the
real GCM tag is computed over, and the derived key records the exact bytes fed
to the KDF.  Fallible calls (socket reads/writes, OpenSSL allocations and
format conversions) are driven by an explicit environment structure whose
fields give each call's outcome, in the order the source performs them.
-/

namespace FoC

abbrev Bytes := List Nat

/-- Wire message tags.  Modelled from the spec: the single-byte tags are
declared in `common/types.h`, which is not under `src/`; only their
distinctness is used by the embedded code. -/
def AuthStart : Nat := 1

/-- Tag of the server's answer message in the handshake. -/
def AuthServerAns : Nat := 2

/-- Tag of the rename-request application message. -/
def RenameReq : Nat := 3

/-- Conversion of a message type to its single wire byte (`mtype_to_uc`). -/
def mtype_to_uc (t : Nat) : Nat := t % 256

/-- Serialisation of the sequence number (`seqnum_to_uc`).  Modelled from the
spec: the sequence number is a fixed-width (here 4-byte little-endian) integer;
`common/seq.h` is not under `src/`. -/
def seqnum_to_uc (s : Nat) : Bytes :=
  [s % 256, s / 256 % 256, s / 256 ^ 2 % 256, s / 256 ^ 3 % 256]

/-- Symbolic AEAD authentication tag: the real GCM tag is a function of the
key, the IV, the associated data and the ciphertext stream, so the symbolic
tag records exactly those inputs. -/
structure Tag where
  key : Bytes
  iv : Bytes
  aad : Bytes
  segs : List Bytes
  deriving DecidableEq, Repr

/-- A secure-channel frame as assembled by the sends of the encode path:
plaintext header (type, sequence number, IV), ciphertext buffer (entries are
`none` where the buffer byte was never written) and the tag. -/
structure Frame where
  mtype : Nat
  seq : Nat
  iv : Bytes
  ct : List (Option Nat)
  tag : Tag
  deriving DecidableEq, Repr

/-- Outcomes of the fallible calls made by `rename`, in source order. -/
structure RenameEnv where
  fOld : Bytes
  fNew : Bytes
  ivRes : Except String Bytes
  sendHeaderRes : Except String Unit
  ctxAllocOk : Bool
  encInitOk : Bool
  aadOk : Bool
  encUpd1Ok : Bool
  encUpd2Ok : Bool
  finalOk : Bool
  getTagOk : Bool
  sendCtRes : Except String Unit
  sendTagRes : Except String Unit
  deriving Repr

/-- Write `bs` into buffer `buf` starting at offset `off`, leaving the rest
of the buffer unchanged (C pointer-arithmetic store). -/
def writeBytes (buf : List (Option Nat)) (off : Nat) (bs : Bytes) :
    List (Option Nat) :=
  buf.take off ++ bs.map some ++ buf.drop (off + bs.length)

/-- Embedding of `rename` from `src/implementation/client/actions/rename.cpp`.
`E key iv n pt` is the ciphertext segment the cipher produces for the `n`-th
`EVP_EncryptUpdate` plaintext `pt`.  The two filename buffers `env.fOld` and
`env.fNew` are the results of `string_to_uchar` (modelled from the spec:
`string_to_uchar` lives in `common/utils.cpp`, not under `src/`; per the spec
the content is brought to the fixed width `FNAME_MAX_LEN` before encoding).
Returns the result, the final value of the `seq_num` counter, and the frame
when every send succeeded.  Mirrors the source exactly, including the second
`EVP_EncryptUpdate` writing to `ct` (offset 0) rather than `ct + ct_len`. -/
def rename (E : Bytes → Bytes → Nat → Bytes → Bytes)
    (FNAME_MAX_LEN BLOCK_SIZE : Nat) (env : RenameEnv) (key : Bytes)
    (seq : Nat) : Except String Unit × Nat × Option Frame :=
  match env.ivRes with
  | .error e => (.error e, seq, none)
  | .ok iv =>
    match env.sendHeaderRes with
    | .error e => (.error e, seq, none)
    | .ok _ =>
      if env.ctxAllocOk = false then
        (.error "Could not encrypt message (alloc)", seq, none)
      else if env.encInitOk = false then (.error "", seq, none)
      else
        -- the two AAD updates: the message-type byte, then the seqnum bytes
        if env.aadOk = false then (.error "", seq, none)
        else
          let aad := mtype_to_uc RenameReq :: seqnum_to_uc seq
          let ct0 : List (Option Nat) :=
            List.replicate (FNAME_MAX_LEN * 2 + BLOCK_SIZE) none
          let seg1 := E key iv 0 env.fOld
          let ct1 := writeBytes ct0 0 seg1
          if env.encUpd1Ok = false then (.error "", seq, none)
          else
            let seg2 := E key iv 1 env.fNew
            let ct2 := writeBytes ct1 0 seg2
            if env.encUpd2Ok = false then (.error "", seq, none)
            else
              -- EVP_EncryptFinal emits no bytes for the streaming AEAD mode
              if env.finalOk = false then (.error "", seq, none)
              else
                let tag : Tag := ⟨key, iv, aad, [seg1, seg2]⟩
                if env.getTagOk = false then (.error "", seq, none)
                else
                  match env.sendCtRes with
                  | .error e => (.error e, seq, none)
                  | .ok _ =>
                    match env.sendTagRes with
                    | .error e => (.error e, seq, none)
                    | .ok _ =>
                      (.ok (), seq + 1,
                        some ⟨mtype_to_uc RenameReq, seq, iv,
                          ct2.take (seg1.length + seg2.length), tag⟩)

/-! ## Server-side handshake (`authenticate`) -/

/-- Heap resources allocated by `authenticate` (and its helper `setup_keys`). -/
inductive Res
  | userKeys
  | usernameBuf
  | tmpBio
  | clientHalfKeyPem
  | clientHalfKey
  | serverHalfKeyPem
  | signatureCtx
  | serverCertificate
  | serverPrivateKey
  | serverSignature
  deriving DecidableEq, Repr

/-- Observable events of a run of `authenticate`: allocation and release of
each resource, construction of the registered-users map, the ephemeral keypair
generation, the final signature computation (with the exact signed bytes) and
the key-derivation call (with the exact secret bytes fed to the KDF). -/
inductive Ev
  | alloc (r : Res)
  | free (r : Res)
  | usersClear
  | userInsert (u : Bytes)
  | genKeypair
  | signFinal (msg : Bytes)
  | kdfCall (secret : Bytes) (len : Nat)
  deriving DecidableEq, Repr

/-- Failure modes of loading one registered user's public key in
`setup_keys`: `fopen` failure (perror + abort) or `PEM_read_PUBKEY` failure
(`handle_errors`). -/
inductive LoadErr
  | fileOpen
  | parse
  deriving DecidableEq, Repr

/-- Symbolic session key: `kdf` lives in `common/` (not under `src/`), so the
derived key records exactly the secret bytes and requested length the source
passes to it. -/
inductive SKey
  | kdf (secret : Bytes) (len : Nat)
  deriving DecidableEq, Repr

/-- Bytes of the username `"alice"`. -/
def aliceBytes : Bytes := [97, 108, 105, 99, 101]

/-- Bytes of the username `"bob"`. -/
def bobBytes : Bytes := [98, 111, 98]

/-- The `users` array of `authentication.cpp`: the possible users of the
server. -/
def users : List Bytes := [aliceBytes, bobBytes]

/-- Byte string `"placeholder"` with its NUL terminator: the twelve bytes
(`sizeof("placeholder")`) the source feeds to `kdf` in place of a
Diffie–Hellman shared secret. -/
def placeholderBytes : Bytes :=
  [112, 108, 97, 99, 101, 104, 111, 108, 100, 101, 114, 0]

/-- The `std::string` a `char *` converts to: the bytes up to the first NUL
(used by `map::find` when handed the username buffer). -/
def cString (b : Bytes) : Bytes := b.takeWhile (fun c => c != 0)

/-- Outcomes of the fallible calls made by `authenticate`, in source order.
`loads u` is the result of opening and parsing user `u`'s public-key file
(the abstract `Nat` identifies the parsed `EVP_PKEY`).  `clientSigValid`
models whether the signature the client sends in its final handshake message
would verify; it is part of the run's environment whether or not the server
ever reads it. -/
structure AuthEnv where
  loads : Bytes → Except LoadErr Nat
  mtypeRes : Except String Nat
  usernameField : Except String Bytes
  bioNewOk : Bool
  halfKeyField : Except String Bytes
  bioWriteOk : Bool
  pemReadClientKeyOk : Bool
  sendHeaderRes : Except String Unit
  sendNameRes : Except String Unit
  pemWriteKeyOk : Bool
  serverHalfKeyPem : Bytes
  sendHalfKeyRes : Except String Unit
  certFileOk : Bool
  certParseOk : Bool
  certPemWriteOk : Bool
  serverCertPem : Bytes
  sendCertRes : Except String Unit
  mdCtxOk : Bool
  signUpdateOk : Bool
  privKeyFileOk : Bool
  privKeyParseOk : Bool
  signFinalOk : Bool
  serverSignature : Bytes
  sendSigRes : Except String Unit
  kdfRes : Except String Unit
  clientSigValid : Bool

/-- Loop body of `setup_keys`: for each user open and parse its public-key
file, inserting the parsed key into the map; on `fopen` failure clear the map
and abort, on parse failure free the collected keys. -/
def setupLoop (load : Bytes → Except LoadErr Nat) :
    List Bytes → List (Bytes × Nat) → List Ev →
    Except String (List (Bytes × Nat)) × List Ev
  | [], acc, tr => (.ok acc, tr)
  | u :: rest, acc, tr =>
    match load u with
    | .error .fileOpen => (.error "Cannot read user key", tr ++ [.usersClear])
    | .error .parse => (.error "", tr ++ [.free .userKeys, .usersClear])
    | .ok k => setupLoop load rest (acc ++ [(u, k)]) (tr ++ [.userInsert u])

/-- Embedding of `setup_keys`: reads the public keys of all registered users
into a fresh map. -/
def setup_keys (load : Bytes → Except LoadErr Nat) :
    Except String (List (Bytes × Nat)) × List Ev :=
  setupLoop load users [] [.alloc .userKeys]

/-- Events emitted by `free_user_keys`: free every stored key, then clear the
map. -/
def freeUserKeysEv : List Ev := [.free .userKeys, .usersClear]

/-- Tail of `authenticate` after the server's signature has been sent
(lines 460-473): the comment «Receive client signature and check it» is
followed by no code; the key is derived by `kdf` from the literal
`"placeholder"` bytes, and on `kdf` failure (the `TODO` branch) nothing is
freed. -/
def authFinish (env : AuthEnv) (keyLen : Nat) (tr : List Ev)
    (username : Bytes) : Except String (Bytes × SKey) × List Ev :=
  let tr := tr ++ [.kdfCall placeholderBytes keyLen]
  match env.kdfRes with
  | .error e => (.error e, tr)
  | .ok _ => (.ok (username, .kdf placeholderBytes keyLen), tr)

/-- Signing section of `authenticate` (lines 357-458): sign the concatenation
{client half key PEM, server half key PEM, username} with the server's
long-term private key and send it. -/
def authSign (env : AuthEnv) (FLEN_MAX keyLen : Nat) (tr : List Ev)
    (username clientHalfKeyPem : Bytes) :
    Except String (Bytes × SKey) × List Ev :=
  if env.mdCtxOk = false then
    (.error "Could not allocate signing context",
      tr ++ freeUserKeysEv ++
        [.free .usernameBuf, .free .clientHalfKeyPem, .free .clientHalfKey])
  else
    let tr := tr ++ [.alloc .signatureCtx]
    if env.signUpdateOk = false then
      (.error "Could not sign correctly (update)",
        tr ++ freeUserKeysEv ++
          [.free .usernameBuf, .free .clientHalfKeyPem,
           .free .serverHalfKeyPem, .free .clientHalfKey,
           .free .signatureCtx])
    else if env.privKeyFileOk = false then
      (.error "Could not open server's private key",
        tr ++ freeUserKeysEv ++
          [.free .usernameBuf, .free .clientHalfKeyPem,
           .free .serverHalfKeyPem, .free .clientHalfKey,
           .free .signatureCtx])
    else if env.privKeyParseOk = false then
      (.error "Could not read server's private key",
        tr ++ freeUserKeysEv ++
          [.free .usernameBuf, .free .clientHalfKeyPem,
           .free .serverHalfKeyPem, .free .clientHalfKey,
           .free .signatureCtx])
    else
      let tr := tr ++ [.alloc .serverPrivateKey, .alloc .serverSignature,
        .signFinal (clientHalfKeyPem ++ env.serverHalfKeyPem ++ username)]
      if env.signFinalOk = false then
        (.error "Could not sign correctly (final)",
          tr ++ freeUserKeysEv ++
            [.free .usernameBuf, .free .clientHalfKeyPem,
             .free .serverHalfKeyPem, .free .serverSignature,
             .free .clientHalfKey, .free .signatureCtx])
      else
        let tr := tr ++ [.free .signatureCtx, .free .serverHalfKeyPem,
          .free .clientHalfKeyPem]
        if env.serverSignature.length > FLEN_MAX then
          (.error "Server signature is bigger than the max packet field length",
            tr ++ [.free .usernameBuf, .free .serverSignature,
              .free .clientHalfKey])
        else
          match env.sendSigRes with
          | .error e =>
            (.error e,
              tr ++ [.free .usernameBuf, .free .serverSignature,
                .free .clientHalfKey])
          | .ok _ => authFinish env keyLen tr username

/-- Server-response section of `authenticate` (lines 174-355): send the
`AuthServerAns` header, the server name, the freshly generated ephemeral half
key and the server certificate.  The `tmp_bio` buffer is not among the frees
of the header/name failure branches, mirroring the source. -/
def authRespond (env : AuthEnv) (FLEN_MAX keyLen : Nat) (tr : List Ev)
    (username clientHalfKeyPem : Bytes) :
    Except String (Bytes × SKey) × List Ev :=
  match env.sendHeaderRes with
  | .error e =>
    (.error e,
      tr ++ freeUserKeysEv ++
        [.free .usernameBuf, .free .clientHalfKeyPem, .free .clientHalfKey])
  | .ok _ =>
    match env.sendNameRes with
    | .error e =>
      (.error e,
        tr ++ freeUserKeysEv ++
          [.free .usernameBuf, .free .clientHalfKeyPem, .free .clientHalfKey])
    | .ok _ =>
      let tr := tr ++ [.genKeypair]
      if env.pemWriteKeyOk = false then
        (.error "Could not write to memory bio",
          tr ++ freeUserKeysEv ++
            [.free .usernameBuf, .free .clientHalfKeyPem, .free .tmpBio,
             .free .clientHalfKey])
      else if env.serverHalfKeyPem.length = 0 then
        (.error "Could not read from memory bio",
          tr ++ freeUserKeysEv ++
            [.free .usernameBuf, .free .clientHalfKeyPem, .free .tmpBio,
             .free .clientHalfKey])
      else if env.serverHalfKeyPem.length > FLEN_MAX then
        (.error
          "Server's half key length is bigger than the maximum field's length",
          tr ++ freeUserKeysEv ++
            [.free .usernameBuf, .free .clientHalfKeyPem, .free .tmpBio,
             .free .clientHalfKey])
      else
        let tr := tr ++ [.alloc .serverHalfKeyPem]
        match env.sendHalfKeyRes with
        | .error e =>
          (.error e,
            tr ++ freeUserKeysEv ++
              [.free .usernameBuf, .free .clientHalfKeyPem,
               .free .serverHalfKeyPem, .free .tmpBio, .free .clientHalfKey])
        | .ok _ =>
          if env.certFileOk = false then
            (.error "Could not open server's certificate file",
              tr ++ freeUserKeysEv ++
                [.free .usernameBuf, .free .clientHalfKeyPem,
                 .free .serverHalfKeyPem, .free .tmpBio,
                 .free .clientHalfKey])
          else if env.certParseOk = false then
            (.error "Could not read X509 certificate from file",
              tr ++ freeUserKeysEv ++
                [.free .usernameBuf, .free .clientHalfKeyPem,
                 .free .serverHalfKeyPem, .free .tmpBio,
                 .free .clientHalfKey])
          else
            let tr := tr ++ [.alloc .serverCertificate]
            if env.certPemWriteOk = false then
              (.error "Could not write to memory bio",
                tr ++ freeUserKeysEv ++
                  [.free .usernameBuf, .free .clientHalfKeyPem,
                   .free .serverHalfKeyPem, .free .tmpBio,
                   .free .clientHalfKey])
            else if env.serverCertPem.length = 0 then
              (.error "Could not read from memory bio",
                tr ++ freeUserKeysEv ++
                  [.free .usernameBuf, .free .clientHalfKeyPem,
                   .free .serverHalfKeyPem, .free .tmpBio,
                   .free .clientHalfKey])
            else if env.serverCertPem.length > FLEN_MAX then
              (.error
                "Server's certificate length is bigger than the maximum field's length",
                tr ++ freeUserKeysEv ++
                  [.free .usernameBuf, .free .clientHalfKeyPem,
                   .free .serverHalfKeyPem, .free .tmpBio,
                   .free .clientHalfKey])
            else
              match env.sendCertRes with
              | .error e =>
                (.error e,
                  tr ++ freeUserKeysEv ++
                    [.free .usernameBuf, .free .clientHalfKeyPem,
                     .free .serverHalfKeyPem, .free .tmpBio,
                     .free .clientHalfKey])
              | .ok _ =>
                authSign env FLEN_MAX keyLen tr username clientHalfKeyPem

/-- Section of `authenticate` after the username buffer has been read and
NUL-terminated (lines 110-168): look the name up in the registered-users map
(via the C-string the `char *` buffer converts to), then read and parse the
client's ephemeral half key. -/
def authAfterUser (env : AuthEnv) (FLEN_MAX keyLen : Nat)
    (tbl : List (Bytes × Nat)) (tr : List Ev) (username : Bytes) :
    Except String (Bytes × SKey) × List Ev :=
  match tbl.lookup (cString username) with
  | none =>
    (.error "User not registered!", tr ++ freeUserKeysEv ++ [.free .usernameBuf])
  | some _clientPubkey =>
    if env.bioNewOk = false then
      (.error "Could not allocate memory bio",
        tr ++ freeUserKeysEv ++ [.free .usernameBuf])
    else
      let tr := tr ++ [.alloc .tmpBio]
      match env.halfKeyField with
      | .error e =>
        (.error e, tr ++ freeUserKeysEv ++ [.free .usernameBuf, .free .tmpBio])
      | .ok clientHalfKeyPem =>
        let tr := tr ++ [.alloc .clientHalfKeyPem]
        if env.bioWriteOk = false then
          (.error "Could not write to memory bio",
            tr ++ freeUserKeysEv ++
              [.free .usernameBuf, .free .clientHalfKeyPem, .free .tmpBio])
        else if env.pemReadClientKeyOk = false then
          (.error "Could not read from memory bio",
            tr ++ freeUserKeysEv ++
              [.free .usernameBuf, .free .clientHalfKeyPem, .free .tmpBio])
        else
          let tr := tr ++ [.alloc .clientHalfKey]
          authRespond env FLEN_MAX keyLen tr username clientHalfKeyPem

/-- Embedding of `authenticate` from
`src/implementation/server/authentication.cpp`: build the users map, receive
the `AuthStart` header and the username field, overwrite the last received
byte of the username with a NUL terminator, and continue with the handshake.
Returns the result (username buffer and derived key on success) together with
the run's event trace. -/
def authenticate (env : AuthEnv) (FLEN_MAX keyLen : Nat) :
    Except String (Bytes × SKey) × List Ev :=
  match setup_keys env.loads with
  | (.error e, tr) => (.error e, tr)
  | (.ok tbl, tr) =>
    match env.mtypeRes with
    | .error _ => (.error "Incorrect message type", tr ++ freeUserKeysEv)
    | .ok t =>
      if t ≠ AuthStart then
        (.error "Incorrect message type", tr ++ freeUserKeysEv)
      else
        match env.usernameField with
        | .error e => (.error e, tr ++ freeUserKeysEv)
        | .ok u =>
          let tr := tr ++ [.alloc .usernameBuf]
          authAfterUser env FLEN_MAX keyLen tbl tr (u.set (u.length - 1) 0)

/-! ## Concrete environments used by witnesses and counterexamples -/

/-- Username field bytes `"alice"` with its NUL terminator, as a client
transmits them. -/
def usernameAlice : Bytes := [97, 108, 105, 99, 101, 0]

/-- Username field bytes `"carol"` with its NUL terminator: a name absent
from the registered-users table. -/
def usernameCarol : Bytes := [99, 97, 114, 111, 108, 0]

/-- Concrete PEM bytes standing for the client's ephemeral public key. -/
def clientPem0 : Bytes := [65, 65, 65]

/-- Concrete PEM bytes standing for the server's ephemeral public key. -/
def serverPem0 : Bytes := [66, 66]

/-- Concrete PEM bytes standing for the server certificate. -/
def certPem0 : Bytes := [67]

/-- Concrete bytes standing for the server's transcript signature. -/
def serverSig0 : Bytes := [68, 68]

/-- Environment of a fully successful `authenticate` run for user `alice`
whose client, however, would present an invalid final signature
(`clientSigValid := false`). -/
def envOk : AuthEnv where
  loads := fun _ => .ok 7
  mtypeRes := .ok AuthStart
  usernameField := .ok usernameAlice
  bioNewOk := true
  halfKeyField := .ok clientPem0
  bioWriteOk := true
  pemReadClientKeyOk := true
  sendHeaderRes := .ok ()
  sendNameRes := .ok ()
  pemWriteKeyOk := true
  serverHalfKeyPem := serverPem0
  sendHalfKeyRes := .ok ()
  certFileOk := true
  certParseOk := true
  certPemWriteOk := true
  serverCertPem := certPem0
  sendCertRes := .ok ()
  mdCtxOk := true
  signUpdateOk := true
  privKeyFileOk := true
  privKeyParseOk := true
  signFinalOk := true
  serverSignature := serverSig0
  sendSigRes := .ok ()
  kdfRes := .ok ()
  clientSigValid := false

/-- Identity cipher used to instantiate the symbolic AEAD in witnesses. -/
def idCipher : Bytes → Bytes → Nat → Bytes → Bytes := fun _ _ _ pt => pt

/-- Fixed-width filename buffer for `"old.txt"` (NUL-padded to width 8). -/
def oldTxt : Bytes := [111, 108, 100, 46, 116, 120, 116, 0]

/-- Fixed-width filename buffer for `"new.txt"` (NUL-padded to width 8). -/
def newTxt : Bytes := [110, 101, 119, 46, 116, 120, 116, 0]

/-- Concrete IV and session-key bytes for rename runs. -/
def iv0 : Bytes := [9, 9, 9, 9]

/-- Concrete session-key bytes for rename runs. -/
def key0 : Bytes := [1, 2, 3, 4]

/-- Environment of a fully successful `rename` run. -/
def renameEnvOk : RenameEnv where
  fOld := oldTxt
  fNew := newTxt
  ivRes := .ok iv0
  sendHeaderRes := .ok ()
  ctxAllocOk := true
  encInitOk := true
  aadOk := true
  encUpd1Ok := true
  encUpd2Ok := true
  finalOk := true
  getTagOk := true
  sendCtRes := .ok ()
  sendTagRes := .ok ()

/-- Environment identical to `envOk` except that sending the `AuthServerAns`
header fails. -/
def envHdrFail : AuthEnv := { envOk with sendHeaderRes := .error "send failed" }

/-- Environment identical to `envOk` except that the claimed username is
`"carol"`, which is not registered. -/
def envCarol : AuthEnv := { envOk with usernameField := .ok usernameCarol }

/-- The usernames inserted into the registered-users map during a trace. -/
def insertsOf (tr : List Ev) : List Bytes :=
  tr.filterMap fun e =>
    match e with
    | .userInsert u => some u
    | _ => none

/-! ## Claims -/

/-- C3: the round-trip law fails on the code.  In the frame produced for
RenameReq("old.txt", "new.txt"), the tag authenticates the two ciphertext
segments of the fields, but the transmitted ciphertext buffer is not their
concatenation: the second `EVP_EncryptUpdate` wrote its output at `ct`
(offset 0) instead of `ct + ct_len`, so the first field's ciphertext was
overwritten and the second half of the transmitted buffer was never
written. -/
theorem rename_ct_overwritten :
    ∃ fr : Frame,
      (rename idCipher 8 16 renameEnvOk key0 5).2.2 = some fr ∧
      fr.tag.segs = [idCipher key0 iv0 0 oldTxt, idCipher key0 iv0 1 newTxt] ∧
      fr.ct ≠
        (idCipher key0 iv0 0 oldTxt ++ idCipher key0 iv0 1 newTxt).map some ∧
      fr.ct.drop 8 = List.replicate 8 none := by
  exact ⟨_, rfl, by decide, by decide, by decide⟩

/-- C6: a failure exit that leaks: when sending the `AuthServerAns` header
fails, `authenticate` surfaces the error while the memory BIO allocated at
line 123 is still live (no matching release appears in the trace). -/
theorem auth_leaks_bio_on_header_send_failure :
    (authenticate envHdrFail 4096 32).1 = .error "send failed" ∧
    Ev.alloc .tmpBio ∈ (authenticate envHdrFail 4096 32).2 ∧
    Ev.free .tmpBio ∉ (authenticate envHdrFail 4096 32).2 := by
  exact ⟨by rfl, by decide, by decide⟩

/-- C7 counterexample: `authenticate` — a per-connection operation — itself
constructs the Registered Users Table (inserting `alice`) on every run, and
clears it on failure exits, so the table is not built exactly once at process
startup. -/
theorem auth_builds_users_per_call :
    Ev.userInsert aliceBytes ∈ (authenticate envOk 4096 32).2 ∧
    Ev.usersClear ∈ (authenticate envHdrFail 4096 32).2 := by
  exact ⟨by decide, by decide⟩

/-- C2: the server never receives or verifies the client's signature: the
result and trace of `authenticate` do not depend on whether the signature the
client would present verifies, and a run whose client signature is invalid
(`envOk` has `clientSigValid := false`) still reaches the success exit and
returns a session key. -/
theorem auth_ignores_client_signature :
    (∀ (env : AuthEnv) (F kl : Nat) (b : Bool),
      authenticate { env with clientSigValid := b } F kl =
        authenticate env F kl) ∧
    (authenticate envOk 4096 32).1 =
      .ok (usernameAlice, .kdf placeholderBytes 32) := by
  constructor
  · intro env F kl b
    cases env
    rfl
  · rfl

/-- Shape of a successful `authFinish`: the returned username is the buffer
passed in, the key is the KDF of the placeholder bytes, and the trace grows by
exactly the KDF-call event. -/
theorem authFinish_ok_shape (env : AuthEnv) (kl : Nat) (tr : List Ev)
    (un u : Bytes) (k : SKey) (tr2 : List Ev)
    (h : authFinish env kl tr un = (.ok (u, k), tr2)) :
    u = un ∧ k = .kdf placeholderBytes kl ∧
      tr2 = tr ++ [.kdfCall placeholderBytes kl] := by
  unfold authFinish at h
  repeat' split at h
  all_goals simp_all

/-- Shape of a successful `authSign`: the returned username and key as in
`authFinish`, and the trace contains the signature event over the transcript
{client half key PEM, server half key PEM, username}. -/
theorem authSign_ok_shape (env : AuthEnv) (F kl : Nat) (tr : List Ev)
    (un cpem u : Bytes) (k : SKey) (tr2 : List Ev)
    (h : authSign env F kl tr un cpem = (.ok (u, k), tr2)) :
    u = un ∧ k = .kdf placeholderBytes kl ∧
      Ev.signFinal (cpem ++ env.serverHalfKeyPem ++ un) ∈ tr2 := by
  unfold authSign at h
  repeat' split at h
  all_goals try (simp at h)
  obtain ⟨h1, h2, h3⟩ := authFinish_ok_shape _ _ _ _ _ _ _ h
  subst h3
  exact ⟨h1, h2, by simp⟩

/-- Shape of a successful `authRespond`, inherited from `authSign`. -/
theorem authRespond_ok_shape (env : AuthEnv) (F kl : Nat) (tr : List Ev)
    (un cpem u : Bytes) (k : SKey) (tr2 : List Ev)
    (h : authRespond env F kl tr un cpem = (.ok (u, k), tr2)) :
    u = un ∧ k = .kdf placeholderBytes kl ∧
      Ev.signFinal (cpem ++ env.serverHalfKeyPem ++ un) ∈ tr2 := by
  unfold authRespond at h
  repeat' split at h
  all_goals try (simp at h)
  exact authSign_ok_shape _ _ _ _ _ _ _ _ _ h

/-- Shape of a successful `authAfterUser`: additionally names the client
half-key PEM bytes actually read from the socket. -/
theorem authAfterUser_ok_shape (env : AuthEnv) (F kl : Nat)
    (tbl : List (Bytes × Nat)) (tr : List Ev) (un u : Bytes) (k : SKey)
    (tr2 : List Ev)
    (h : authAfterUser env F kl tbl tr un = (.ok (u, k), tr2)) :
    u = un ∧ k = .kdf placeholderBytes kl ∧
      ∃ cpem, env.halfKeyField = .ok cpem ∧
        Ev.signFinal (cpem ++ env.serverHalfKeyPem ++ un) ∈ tr2 := by
  unfold authAfterUser at h
  repeat' split at h
  all_goals try (simp at h)
  rename_i cpem heq _ _
  obtain ⟨h1, h2, h3⟩ := authRespond_ok_shape _ _ _ _ _ _ _ _ _ h
  exact ⟨h1, h2, cpem, heq, h3⟩

/-- Master shape of a successful `authenticate` run: names the username bytes
received on the wire, shows the returned username is that buffer with its last
byte overwritten by NUL, the key is the KDF of the placeholder bytes, and the
trace contains the signature over {client PEM, server PEM, username}. -/
theorem authenticate_ok_shape (env : AuthEnv) (F kl : Nat) (u : Bytes)
    (k : SKey) (tr2 : List Ev)
    (h : authenticate env F kl = (.ok (u, k), tr2)) :
    (∃ u0, env.usernameField = .ok u0 ∧ u = u0.set (u0.length - 1) 0) ∧
      k = .kdf placeholderBytes kl ∧
      ∃ cpem, env.halfKeyField = .ok cpem ∧
        Ev.signFinal (cpem ++ env.serverHalfKeyPem ++ u) ∈ tr2 := by
  unfold authenticate at h
  repeat' split at h
  all_goals try (simp at h)
  rename_i u0 heq
  obtain ⟨h1, h2, h3⟩ := authAfterUser_ok_shape _ _ _ _ _ _ _ _ _ h
  exact ⟨⟨u0, heq, h1⟩, h2, by rw [h1]; exact h3⟩

/-- C1: the session key returned by every successful `authenticate` run is
derived by the KDF from the constant bytes of the string literal
`"placeholder"` — not from a Diffie–Hellman shared secret, and independently
of both ephemeral public keys. -/
theorem auth_key_is_kdf_of_placeholder (env : AuthEnv) (F kl : Nat)
    (u : Bytes) (k : SKey)
    (h : (authenticate env F kl).1 = .ok (u, k)) :
    k = .kdf placeholderBytes kl := by
  rcases hS : authenticate env F kl with ⟨r, tr2⟩
  rw [hS] at h
  simp only at h
  subst h
  exact (authenticate_ok_shape _ _ _ _ _ _ hS).2.1

/-- C1 witness: a concrete successful run whose returned key is
`kdf("placeholder")`. -/
theorem auth_key_is_kdf_of_placeholder_witness :
    SKey.kdf placeholderBytes 32 = .kdf placeholderBytes 32 :=
  auth_key_is_kdf_of_placeholder envOk 4096 32 usernameAlice
    (.kdf placeholderBytes 32) (by rfl)

/-- C5: on every successful run the byte string signed with the server's
long-term private key is exactly the concatenation {client ephemeral public
key PEM bytes, server ephemeral public key PEM bytes, username buffer}, in
that order, hashed as one unit by the single signing context. -/
theorem auth_transcript_signed_in_order (env : AuthEnv) (F kl : Nat)
    (u : Bytes) (k : SKey)
    (h : (authenticate env F kl).1 = .ok (u, k)) :
    ∃ cpem, env.halfKeyField = .ok cpem ∧
      Ev.signFinal (cpem ++ env.serverHalfKeyPem ++ u) ∈
        (authenticate env F kl).2 := by
  rcases hS : authenticate env F kl with ⟨r, tr2⟩
  rw [hS] at h
  simp only at h
  subst h
  obtain ⟨-, -, cpem, hc, hm⟩ := authenticate_ok_shape _ _ _ _ _ _ hS
  exact ⟨cpem, hc, hm⟩

/-- C5 witness: the concrete successful run of `envOk` signs
{clientPem0, serverPem0, "alice" with NUL} in that order. -/
theorem auth_transcript_signed_in_order_witness :
    ∃ cpem, envOk.halfKeyField = .ok cpem ∧
      Ev.signFinal (cpem ++ envOk.serverHalfKeyPem ++ usernameAlice) ∈
        (authenticate envOk 4096 32).2 :=
  auth_transcript_signed_in_order envOk 4096 32 usernameAlice
    (.kdf placeholderBytes 32) (by rfl)

/-- C4: when the claimed (NUL-terminated) username is not a key of the
registered-users map, `authenticate` fails with the unknown-user error and
the ephemeral keypair generation (`gen_keypair`) never happens in that run. -/
theorem auth_unknown_user_rejected_before_keygen (env : AuthEnv)
    (F kl ka kb : Nat) (u : Bytes)
    (hA : env.loads aliceBytes = .ok ka) (hB : env.loads bobBytes = .ok kb)
    (hm : env.mtypeRes = .ok AuthStart) (hu : env.usernameField = .ok u)
    (hna : cString (u.set (u.length - 1) 0) ≠ aliceBytes)
    (hnb : cString (u.set (u.length - 1) 0) ≠ bobBytes) :
    (authenticate env F kl).1 = .error "User not registered!" ∧
    Ev.genKeypair ∉ (authenticate env F kl).2 := by
  have ha' : (cString (u.set (u.length - 1) 0) == aliceBytes) = false :=
    beq_eq_false_iff_ne.mpr hna
  have hb' : (cString (u.set (u.length - 1) 0) == bobBytes) = false :=
    beq_eq_false_iff_ne.mpr hnb
  simp [authenticate, setup_keys, setupLoop, users, authAfterUser,
    List.lookup, hA, hB, hm, hu, ha', hb', freeUserKeysEv]

/-- C4 witness: the run claiming the unregistered name `"carol"`. -/
theorem auth_unknown_user_rejected_before_keygen_witness :
    (authenticate envCarol 4096 32).1 = .error "User not registered!" ∧
    Ev.genKeypair ∉ (authenticate envCarol 4096 32).2 :=
  auth_unknown_user_rejected_before_keygen envCarol 4096 32 7 7 usernameCarol
    rfl rfl rfl rfl (by decide) (by decide)

/-- C10: the received username buffer of length L has its byte at index L-1
(the last transmitted byte) overwritten with NUL; the name returned on success
is that modified buffer (hence NUL-terminated), and every later use depends on
the received bytes only through the modified buffer: two received fields with
the same modified buffer give identical runs, so lookup, transcript and return
all see the modified buffer rather than the exact transmitted bytes. -/
theorem auth_username_nul_overwritten (env : AuthEnv) (F kl : Nat)
    (u nm : Bytes) (k : SKey)
    (hu : env.usernameField = .ok u)
    (h : (authenticate env F kl).1 = .ok (nm, k)) :
    nm = u.set (u.length - 1) 0 ∧
    (u ≠ [] → nm.getLast? = some 0) ∧
    (∀ v v', v.set (v.length - 1) 0 = v'.set (v'.length - 1) 0 →
      authenticate { env with usernameField := .ok v } F kl =
        authenticate { env with usernameField := .ok v' } F kl) := by
  have hpart3 : ∀ v v', v.set (v.length - 1) 0 = v'.set (v'.length - 1) 0 →
      authenticate { env with usernameField := .ok v } F kl =
        authenticate { env with usernameField := .ok v' } F kl := by
    intro v v' hset
    cases env
    simp only [authenticate]
    rw [hset]
    rfl
  rcases hS : authenticate env F kl with ⟨r, tr2⟩
  rw [hS] at h
  simp only at h
  subst h
  obtain ⟨⟨u0, hu0, hnm⟩, -, -⟩ := authenticate_ok_shape _ _ _ _ _ _ hS
  rw [hu] at hu0
  obtain rfl : u0 = u := by injection hu0 with hh; exact hh.symm
  refine ⟨hnm, ?_, hpart3⟩
  intro hne
  subst hnm
  rw [List.getLast?_eq_getElem?, List.length_set]
  exact List.getElem?_set_eq_of_lt 0
    (Nat.sub_lt (List.length_pos.mpr hne) Nat.one_pos)


/-- Trace appended by `authFinish` contains no user-insert events. -/
theorem authFinish_inserts (env : AuthEnv) (kl : Nat) (tr : List Ev)
    (un : Bytes) : insertsOf (authFinish env kl tr un).2 = insertsOf tr := by
  unfold authFinish
  repeat' split
  all_goals simp [insertsOf, List.filterMap_append, List.filterMap_cons]

/-- Trace appended by `authSign` contains no user-insert events. -/
theorem authSign_inserts (env : AuthEnv) (F kl : Nat) (tr : List Ev)
    (un cpem : Bytes) :
    insertsOf (authSign env F kl tr un cpem).2 = insertsOf tr := by
  unfold authSign
  repeat' split
  all_goals try rw [authFinish_inserts]
  all_goals simp [insertsOf, freeUserKeysEv, List.filterMap_append,
    List.filterMap_cons]

/-- Trace appended by `authRespond` contains no user-insert events. -/
theorem authRespond_inserts (env : AuthEnv) (F kl : Nat) (tr : List Ev)
    (un cpem : Bytes) :
    insertsOf (authRespond env F kl tr un cpem).2 = insertsOf tr := by
  unfold authRespond
  repeat' split
  all_goals try rw [authSign_inserts]
  all_goals simp [insertsOf, freeUserKeysEv, List.filterMap_append,
    List.filterMap_cons]

/-- Trace appended by `authAfterUser` contains no user-insert events. -/
theorem authAfterUser_inserts (env : AuthEnv) (F kl : Nat)
    (tbl : List (Bytes × Nat)) (tr : List Ev) (un : Bytes) :
    insertsOf (authAfterUser env F kl tbl tr un).2 = insertsOf tr := by
  unfold authAfterUser
  repeat' split
  all_goals try rw [authRespond_inserts]
  all_goals simp [insertsOf, freeUserKeysEv, List.filterMap_append,
    List.filterMap_cons]

/-- The trace passed into `authFinish` is a prefix of its output trace. -/
theorem authFinish_tr_starts (env : AuthEnv) (kl : Nat) (tr : List Ev)
    (un : Bytes) : tr <+: (authFinish env kl tr un).2 := by
  unfold authFinish
  repeat' split
  all_goals simp

/-- The trace passed into `authSign` is a prefix of its output trace. -/
theorem authSign_tr_starts (env : AuthEnv) (F kl : Nat) (tr : List Ev)
    (un cpem : Bytes) : tr <+: (authSign env F kl tr un cpem).2 := by
  unfold authSign
  repeat' split
  all_goals try (exact List.IsPrefix.trans (by simp [List.append_assoc]) (authFinish_tr_starts _ _ _ _))
  all_goals simp [List.append_assoc]

/-- The trace passed into `authRespond` is a prefix of its output trace. -/
theorem authRespond_tr_starts (env : AuthEnv) (F kl : Nat) (tr : List Ev)
    (un cpem : Bytes) : tr <+: (authRespond env F kl tr un cpem).2 := by
  unfold authRespond
  repeat' split
  all_goals try (exact List.IsPrefix.trans (by simp [List.append_assoc]) (authSign_tr_starts _ _ _ _ _ _))
  all_goals simp [List.append_assoc]

/-- The trace passed into `authAfterUser` is a prefix of its output trace. -/
theorem authAfterUser_tr_starts (env : AuthEnv) (F kl : Nat)
    (tbl : List (Bytes × Nat)) (tr : List Ev) (un : Bytes) :
    tr <+: (authAfterUser env F kl tbl tr un).2 := by
  unfold authAfterUser
  repeat' split
  all_goals try (exact List.IsPrefix.trans (by simp [List.append_assoc]) (authRespond_tr_starts _ _ _ _ _ _))
  all_goals simp [List.append_assoc]

/-- C7 amended: the Registered Users Table is not a process-lifetime object:
every `authenticate` call (with loadable keys) rebuilds it at the start of the
run — the trace begins with the map allocation followed by the insertion of
exactly `alice` and `bob`, and no further insertions happen later in the
run. -/
theorem auth_users_built_per_call (env : AuthEnv) (F kl ka kb : Nat)
    (hA : env.loads aliceBytes = .ok ka) (hB : env.loads bobBytes = .ok kb) :
    insertsOf (authenticate env F kl).2 = [aliceBytes, bobBytes] ∧
    [Ev.alloc .userKeys, Ev.userInsert aliceBytes, Ev.userInsert bobBytes] <+:
      (authenticate env F kl).2 := by
  constructor
  · simp only [authenticate, setup_keys, setupLoop, users, hA, hB]
    repeat' split
    all_goals try rw [authAfterUser_inserts]
    all_goals simp [insertsOf, freeUserKeysEv, List.filterMap_append,
      List.filterMap_cons]
  · simp only [authenticate, setup_keys, setupLoop, users, hA, hB]
    repeat' split
    all_goals try (exact List.IsPrefix.trans (by simp [List.append_assoc]) (authAfterUser_tr_starts _ _ _ _ _ _))
    all_goals simp [List.append_assoc]

/-- C7 amended witness: the concrete successful run of `envOk`. -/
theorem auth_users_built_per_call_witness :
    insertsOf (authenticate envOk 4096 32).2 = [aliceBytes, bobBytes] ∧
    [Ev.alloc .userKeys, Ev.userInsert aliceBytes, Ev.userInsert bobBytes] <+:
      (authenticate envOk 4096 32).2 :=
  auth_users_built_per_call envOk 4096 32 7 7 rfl rfl

/-- C9: the send sequence counter is incremented exactly once, and only on the
exit where header, ciphertext and tag were all sent without error; every error
exit of `rename` leaves the counter unchanged (and sends no complete frame),
and the completed frame carries the pre-increment sequence number. -/
theorem rename_seq_increment_discipline
    (E : Bytes → Bytes → Nat → Bytes → Bytes) (F B : Nat) (env : RenameEnv)
    (key : Bytes) (seq : Nat) :
    (∀ e, (rename E F B env key seq).1 = .error e →
      (rename E F B env key seq).2.1 = seq ∧
      (rename E F B env key seq).2.2 = none) ∧
    ((rename E F B env key seq).1 = .ok () →
      (rename E F B env key seq).2.1 = seq + 1 ∧
      ∃ fr, (rename E F B env key seq).2.2 = some fr ∧ fr.seq = seq) := by
  unfold rename
  repeat' split
  all_goals simp

/-- C9 witness: the concrete successful run increments 5 to 6 and the frame
carries 5. -/
theorem rename_seq_increment_discipline_witness :
    (rename idCipher 8 16 renameEnvOk key0 5).2.1 = 5 + 1 ∧
    ∃ fr, (rename idCipher 8 16 renameEnvOk key0 5).2.2 = some fr ∧
      fr.seq = 5 :=
  (rename_seq_increment_discipline idCipher 8 16 renameEnvOk key0 5).2 (by rfl)

/-- C8: in every completed frame the message-type byte and the sequence-number
bytes are the associated data of the AEAD (the two `EVP_EncryptUpdate` calls
with a null output buffer), so they are tag inputs; the ciphertext segments
are functions of the payload fields only (the ciphertext of a run does not
change when the sequence number changes), and any change of the header
associated data yields a different tag. -/
theorem rename_header_bound_as_aad
    (E : Bytes → Bytes → Nat → Bytes → Bytes) (F B : Nat) (env : RenameEnv)
    (key : Bytes) (seq : Nat) (fr : Frame)
    (h : (rename E F B env key seq).2.2 = some fr) :
    fr.tag.aad = mtype_to_uc RenameReq :: seqnum_to_uc seq ∧
    fr.tag.segs = [E key fr.iv 0 env.fOld, E key fr.iv 1 env.fNew] ∧
    ∀ seq' fr', (rename E F B env key seq').2.2 = some fr' →
      fr'.ct = fr.ct ∧
      (seqnum_to_uc seq' ≠ seqnum_to_uc seq → fr'.tag ≠ fr.tag) := by
  unfold rename at h
  repeat' split at h
  all_goals simp at h
  subst h
  refine ⟨rfl, rfl, ?_⟩
  intro seq' fr' h'
  unfold rename at h'
  simp_all
  subst h'
  refine ⟨rfl, fun hne htag => hne ?_⟩
  have haad := congrArg Tag.aad htag
  simpa using haad

/-- Concrete frame produced by the successful rename run, used by the C8
witness. -/
def fr0 : Frame :=
  ⟨mtype_to_uc RenameReq, 5, iv0, newTxt.map some ++ List.replicate 8 none,
    ⟨key0, iv0, mtype_to_uc RenameReq :: seqnum_to_uc 5, [oldTxt, newTxt]⟩⟩

/-- C8 witness: instantiation at the concrete successful run. -/
theorem rename_header_bound_as_aad_witness :
    fr0.tag.aad = mtype_to_uc RenameReq :: seqnum_to_uc 5 ∧
    fr0.tag.segs =
      [idCipher key0 fr0.iv 0 renameEnvOk.fOld,
       idCipher key0 fr0.iv 1 renameEnvOk.fNew] ∧
    ∀ seq' fr', (rename idCipher 8 16 renameEnvOk key0 seq').2.2 = some fr' →
      fr'.ct = fr0.ct ∧
      (seqnum_to_uc seq' ≠ seqnum_to_uc 5 → fr'.tag ≠ fr0.tag) :=
  rename_header_bound_as_aad idCipher 8 16 renameEnvOk key0 5 fr0 (by decide)

/-- C10 witness: the concrete run receiving the field `"alice\x00"`. -/
theorem auth_username_nul_overwritten_witness :
    usernameAlice = usernameAlice.set (usernameAlice.length - 1) 0 ∧
    (usernameAlice ≠ [] → usernameAlice.getLast? = some 0) ∧
    (∀ v v', v.set (v.length - 1) 0 = v'.set (v'.length - 1) 0 →
      authenticate { envOk with usernameField := .ok v } 4096 32 =
        authenticate { envOk with usernameField := .ok v' } 4096 32) :=
  auth_username_nul_overwritten envOk 4096 32 usernameAlice usernameAlice
    (.kdf placeholderBytes 32) rfl (by rfl)

end FoC
